import Mathlib

/-!
Verification of the video-to-recipe extraction pipeline and the
ingredient-based recommendation engine (a single-file Flask application,
`src/app.py`).  The Python source is shallowly embedded: pure helpers become
Lean functions, the SQLite `recipes` table becomes a `List Recipe`, the
process-wide status dictionary becomes an association list, and the external
services (YouTube metadata / transcript / comments, the Gemini model) are
abstracted as an `Env` of oracles whose results are exactly the values the
Python code would observe at the corresponding call sites.  Exceptions are
modelled by `Except`; a `try`/`except` boundary becomes a `match` on the
inner `Except` value.
-/

namespace RecipeApp

/-! ## Character and string utilities -/

/-- The ASCII whitespace characters removed by Python's `\s`/`str.strip()`
(the Unicode-only space characters do not occur in this development). -/
def isPySpace (c : Char) : Bool :=
  c = ' ' || c = '\t' || c = '\n' || c = '\r' || c = '\x0b' || c = '\x0c'

/-- ASCII lower-casing, the folding SQLite's `LIKE` applies to `A`–`Z`. -/
def asciiLower (c : Char) : Char :=
  if 'A' ≤ c ∧ c ≤ 'Z' then Char.ofNat (c.toNat + 32) else c

/-- Character comparison used by SQLite `LIKE`: ASCII-case-insensitive,
exact on every other character. -/
def likeCharEq (p c : Char) : Bool :=
  asciiLower p = asciiLower c

/-- Does `f` hold of some suffix of the list (the list itself included)?
Used to give `%` its "match any prefix" reading below. -/
def anySuffix (f : List Char → Bool) : List Char → Bool
  | [] => f []
  | c :: s => f (c :: s) || anySuffix f s

/-- SQLite `LIKE` pattern matching over character lists: `%` matches any
(possibly empty) character sequence — i.e. the rest of the pattern may
start at any suffix of the text — `_` matches exactly one character, and
any other pattern character matches ASCII-case-insensitively.  No `ESCAPE`
clause is in play in `app.py`. -/
def likeMatchL : List Char → List Char → Bool
  | [], s => s.isEmpty
  | '%' :: ps, s => anySuffix (likeMatchL ps) s
  | '_' :: _, [] => false
  | '_' :: ps, _ :: s => likeMatchL ps s
  | _ :: _, [] => false
  | p :: ps, c :: s => likeCharEq p c && likeMatchL ps s

/-- `ingredients LIKE ?` with bound value `f"%{t}%"` (app.py:681–682):
does the fragment `t` match anywhere inside `s` under `LIKE` semantics? -/
def sqlLikeContains (t s : String) : Bool :=
  likeMatchL ('%' :: (t.data ++ ['%'])) s.data

/-- Python `str.split(',')` over a character list: `[]` yields one empty
piece, and every comma opens a new piece. -/
def splitCommasL : List Char → List (List Char)
  | [] => [[]]
  | c :: rest =>
    match splitCommasL rest with
    | [] => [[]]
    | t :: ts => if c = ',' then [] :: t :: ts else (c :: t) :: ts

/-- Python `str.strip()` (whitespace strip at both ends) on a char list. -/
def pyStripL (l : List Char) : List Char :=
  ((l.dropWhile isPySpace).reverse.dropWhile isPySpace).reverse

/-- Parse raw comma-separated user text into the token set
`set(i.strip() for i in text.split(',') if i.strip())` (app.py:676 and
app.py:695).  The Python `set` is represented as a duplicate-free list. -/
def parseTokens (s : String) : List String :=
  ((((splitCommasL s.data).map pyStripL).filter (fun t => !t.isEmpty)).map
    (fun t => String.mk t)).dedup

/-! ## Ingredient normalization (app.py:334–336) -/

/-- `re.sub(r'\s+', '', s)`: delete every whitespace character. -/
def stripWsL (l : List Char) : List Char :=
  l.filter (fun c => !isPySpace c)

/-- `re.sub(r',+', ',', s)`: collapse each run of commas to one comma. -/
def collapseCommasL : List Char → List Char
  | [] => []
  | [c] => [c]
  | c :: d :: rest =>
    if c = ',' ∧ d = ',' then collapseCommasL (d :: rest)
    else c :: collapseCommasL (d :: rest)

/-- `s.strip(',')`: remove all leading and trailing commas. -/
def stripCommasL (l : List Char) : List Char :=
  ((l.dropWhile (fun c => c = ',')).reverse.dropWhile (fun c => c = ',')).reverse

/-- The three normalization steps of `analyze_with_gemini`
(app.py:334–336), in source order. -/
def normalizeIngredients (s : String) : String :=
  String.mk (stripCommasL (collapseCommasL (stripWsL s.data)))

/-! ## JSON values (the result of `json.loads`) -/

/-- JSON values as produced by `json.loads`.  Numbers are not inspected by
any code path under verification, so integers suffice. -/
inductive Json where
  | null : Json
  | bool : Bool → Json
  | num : Int → Json
  | str : String → Json
  | arr : List Json → Json
  | obj : List (String × Json) → Json

/-- Python `dict.get k` on a parsed JSON object (keys are unique after
`json.loads`). -/
def objGet (fields : List (String × Json)) (k : String) : Option Json :=
  (fields.find? (fun p => p.1 = k)).map (fun p => p.2)

/-- The `ingredients` field handling of app.py:330–334: a list is joined
with commas (`','.join` raises `TypeError` on a non-string element), a
string passes through, and any other value makes the later `re.sub` raise
`TypeError`.  Raised exceptions are the `.error` results. -/
def ingredientsToString : Json → Except String String
  | Json.str s => Except.ok s
  | Json.arr es =>
    (es.mapM (fun e => match e with
      | Json.str s => Except.ok s
      | _ => Except.error "TypeError")).map (String.intercalate ",")
  | _ => Except.error "TypeError"

/-! ## The inference extractor `analyze_with_gemini` (app.py:270–355) -/

/-- The three optional source slots handed to the extractor.  Python keeps
them in a dict whose keys exist only for truthy values, and re-tests
truthiness with `.get`; the empty string therefore coincides with absence,
and is used as the absence marker here. -/
structure DataDict where
  transcript : String
  description : String
  comments : String

/-- `available_data` (app.py:276–282): one labeled, per-source-truncated
entry per non-empty slot, in the fixed order captions, description,
comments. -/
def availableData (dd : DataDict) : List String :=
  (if dd.transcript ≠ "" then ["자막: " ++ dd.transcript.take 2000] else []) ++
  (if dd.description ≠ "" then ["설명: " ++ dd.description.take 1000] else []) ++
  (if dd.comments ≠ "" then ["댓글: " ++ dd.comments.take 800] else [])

/-- `sources` (app.py:339–345): the labels of the non-empty input slots, in
the fixed order captions, description, comments — computed from the input
dict, never from the model response. -/
def presentSlots (dd : DataDict) : List String :=
  (if dd.transcript ≠ "" then ["자막"] else []) ++
  (if dd.description ≠ "" then ["설명"] else []) ++
  (if dd.comments ≠ "" then ["댓글"] else [])

/-- The three ways app.py:317–326 can leave the record-selection step:
the empty-list early `return`, a raised exception, or a usable dict. -/
inductive RecordStep where
  | emptyList : RecordStep
  | bad : String → RecordStep
  | record : List (String × Json) → RecordStep

/-- app.py:317–326: a list response stands for its first element (the
empty list triggers an early return); `.get` then requires a dict, so any
non-dict record raises `AttributeError`. -/
def recordOf : Json → RecordStep
  | Json.arr [] => RecordStep.emptyList
  | Json.arr (Json.obj fs :: _) => RecordStep.record fs
  | Json.arr (_ :: _) => RecordStep.bad "AttributeError"
  | Json.obj fs => RecordStep.record fs
  | _ => RecordStep.bad "AttributeError"

/-- The body of `analyze_with_gemini`'s `try` block, after the external
call: `resp` is the outcome of parsing the (fence-stripped) model response
(`none` = `json.JSONDecodeError`).  `.error` marks each point where the
Python body raises; `.ok` carries the returned
`(dish_name, ingredients, sources)` triple.  `dish_name` is kept as the raw
JSON value, exactly as `data.get('dish_name', title)` yields it. -/
def analyzeParsed (dd : DataDict) (title : String) (data : Json) :
    Except String (Json × String × List String) :=
  match recordOf data with
  | RecordStep.emptyList =>
    -- app.py:320–323: Gemini returned an empty list; log and return.
    Except.ok (Json.str title, "", [])
  | RecordStep.bad e => Except.error e
  | RecordStep.record fs =>
    let dishName : Json := (objGet fs "dish_name").getD (Json.str title)
    let ingredients0 : Json := (objGet fs "ingredients").getD (Json.str "")
    match ingredientsToString ingredients0 with
    | Except.error e => Except.error e
    | Except.ok raw =>
      Except.ok (dishName, normalizeIngredients raw, presentSlots dd)

/-- `analyze_with_gemini`'s `try` body after the external call (see
`analyzeParsed` for the part after `json.loads` succeeds). -/
def analyzeRaises (dd : DataDict) (title : String) (resp : Option Json) :
    Except String (Json × String × List String) :=
  if availableData dd = [] then Except.ok (Json.str title, "", [])
  else
    match resp with
    | none => Except.error "JSONDecodeError"
    | some data => analyzeParsed dd title data

/-- `analyze_with_gemini` with its `except` boundary (app.py:350–355): any
exception degrades to `(title, "", [])`. -/
def analyze_with_gemini (dd : DataDict) (title : String) (resp : Option Json) :
    Json × String × List String :=
  match analyzeRaises dd title resp with
  | Except.ok r => r
  | Except.error _ => (Json.str title, "", [])


/-! ## The recipe store and the recommendation matcher (app.py:669–716) -/

/-- One row of the `recipes` table, with the seven columns the insert at
app.py:423–426 populates (`id` and `created_at` are database-generated and
never read by the verified code).  `data_sources` is nullable in the schema,
hence the `Option`; `dish_name` is stored exactly as the extractor produced
it. -/
structure Recipe where
  video_id : String
  title : String
  description : String
  ingredients : String
  dish_name : Json
  url : String
  data_sources : Option String

/-- `match_rate` as the code sorts and displays it: the exact rate
`matched / total * 100` rounded to tenths of a percent, returned as a count
of tenths.  This models `float(f"{rate:.1f}")` by round-to-nearest on the
exact rational (Python rounds the underlying double half-to-even, which can
differ only when `1000 * matched / total` lands exactly on an
integer-plus-half, immaterial to everything proved here); `0` when the
recipe set is empty (app.py:699). -/
def rateTenths (matched total : Nat) : Nat :=
  if total = 0 then 0 else (2000 * matched + total) / (2 * total)

/-- `|userSet ∩ recipeSet|` for a stored row. -/
def matchedCount (tokens : List String) (r : Recipe) : Nat :=
  (tokens.filter (fun t => (parseTokens r.ingredients).contains t)).length

/-- `|recipeSet|` for a stored row. -/
def ingCount (r : Recipe) : Nat :=
  (parseTokens r.ingredients).length

/-- The exact percentage `|matched| / |recipeSet| * 100` of app.py:699,
before formatting. -/
def exactRatePct (tokens : List String) (r : Recipe) : ℚ :=
  if ingCount r = 0 then 0
  else ((matchedCount tokens r : ℚ) / (ingCount r : ℚ)) * 100

/-- One entry of the `recipes` response list (app.py:701–710).  The
`matched` / `missing` / `all_ingredients` display strings are comma-joins of
Python sets (iteration order unspecified); the sets themselves are kept
here, in the canonical order of the duplicate-free parse. -/
structure RecipeCard where
  title : String
  url : String
  dish_name : Json
  rate10 : Nat
  matched : List String
  missing : List String
  all_ingredients : List String
  sources : String

/-- Build one card from a candidate row (app.py:694–710). -/
def mkCard (tokens : List String) (r : Recipe) : RecipeCard :=
  let recipeSet := parseTokens r.ingredients
  { title := r.title
    url := r.url
    dish_name := r.dish_name
    rate10 := rateTenths (tokens.filter (fun t => recipeSet.contains t)).length recipeSet.length
    matched := tokens.filter (fun t => recipeSet.contains t)
    missing := recipeSet.filter (fun i => !tokens.contains i)
    all_ingredients := recipeSet
    sources := r.data_sources.getD "없음" }

/-- The SQL `WHERE` clause of app.py:681–684: one `ingredients LIKE ?`
condition per user token, joined with `OR`. -/
def isCandidate (tokens : List String) (r : Recipe) : Bool :=
  tokens.any (fun t => sqlLikeContains t r.ingredients)

/-- Insert a card into a list already sorted by descending `rate10`,
after every card of strictly greater rate — the position Python's stable
`list.sort(key=..., reverse=True)` gives an earlier-scanned card. -/
def insertDesc (x : RecipeCard) : List RecipeCard → List RecipeCard
  | [] => [x]
  | y :: ys => if x.rate10 < y.rate10 then y :: insertDesc x ys else x :: y :: ys

/-- Stable sort by descending `rate10`, modelling
`recipes.sort(key=lambda x: float(x['match_rate']), reverse=True)`
(app.py:712). -/
def sortDesc : List RecipeCard → List RecipeCard
  | [] => []
  | x :: xs => insertDesc x (sortDesc xs)

/-- The observable outcomes of a `POST /recommend` request. -/
inductive RecResult where
  | emptyInputMsg : RecResult
  | sqlError : RecResult
  | noMatches : RecResult
  | ranked : List RecipeCard → RecResult

/-- The card list of a ranked result (empty for the other outcomes). -/
def RecResult.cards : RecResult → List RecipeCard
  | RecResult.ranked l => l
  | _ => []

/-- `recommend_recipe` (app.py:669–716) over a store snapshot.  An empty
raw input short-circuits to the user-facing message; a non-empty input
whose parsed token set is empty builds the query
`SELECT * FROM recipes WHERE ` with zero `LIKE` conditions — invalid SQL,
so `cursor.execute` raises (`sqlError`). -/
def recommend_recipe (input : String) (store : List Recipe) : RecResult :=
  if input = "" then RecResult.emptyInputMsg
  else if (parseTokens input).isEmpty then RecResult.sqlError
  else if (store.filter (isCandidate (parseTokens input))).isEmpty then
    RecResult.noMatches
  else
    RecResult.ranked (sortDesc
      ((store.filter (isCandidate (parseTokens input))).map
        (mkCard (parseTokens input))))

/-! ## Progress reporting (app.py:357–367 and 652–663) -/

/-- One value of the `processing_status` dict.  `completed` and
`success_count` exist only in records that have been finalized (or in the
polling default); `timestamp` records `time.time()`, abstracted to a unit
marker. -/
structure StatusRec where
  current : Nat
  total : Nat
  percentage : Nat
  status : String
  video_title : String
  completed : Option Bool
  success_count : Option Nat
  timestamp : Option Unit

/-- The process-wide `processing_status` dict, keyed by session id. -/
abbrev StatusMap := List (String × StatusRec)

/-- Dict assignment `m[k] = v`. -/
def mapSet (m : StatusMap) (k : String) (v : StatusRec) : StatusMap :=
  (k, v) :: m.filter (fun p => p.1 ≠ k)

/-- Dict lookup. -/
def mapGet? (m : StatusMap) (k : String) : Option StatusRec :=
  (m.find? (fun p => p.1 = k)).map (fun p => p.2)

/-- `update_status` (app.py:358–367).  `int((current/total)*100)` is
modelled as natural floor division. -/
def update_status (m : StatusMap) (sessionId : String) (current total : Nat)
    (statusText videoTitle : String) : StatusMap :=
  mapSet m sessionId
    { current := current
      total := total
      percentage := if total > 0 then current * 100 / total else 0
      status := statusText
      video_title := videoTitle
      completed := none
      success_count := none
      timestamp := some () }

/-- `get_status` (app.py:652–663): the stored record, or the well-formed
default for an unknown session id. -/
def get_status (m : StatusMap) (sessionId : String) : StatusRec :=
  match mapGet? m sessionId with
  | some r => r
  | none =>
    { current := 0
      total := 0
      percentage := 0
      status := "준비 중..."
      video_title := ""
      completed := some false
      success_count := none
      timestamp := none }

/-! ## The item processor and batch driver (app.py:370–444 and 623–650) -/

/-- `get_video_info`'s successful payload (app.py:163–168). -/
structure VideoInfo where
  title : String
  description : String
  url : String

/-- The external collaborators, abstracted as oracles: each function's
value at `video_id` is exactly what the corresponding Python call would
return.  `resp` is the parsed JSON of the Gemini response for the video
(`none` = the response text failed to parse). -/
structure Env where
  playlist : String → List String
  info : String → Option VideoInfo
  transcript : String → Option String
  comments : String → Option String
  resp : String → Option Json

/-- The mutable state the processor touches: the `recipes` table and the
`processing_status` dict. -/
structure ProcState where
  store : List Recipe
  status : StatusMap

/-- `check_if_video_exists` (app.py:118–124):
`SELECT COUNT(*) FROM recipes WHERE video_id = ?` compared with zero. -/
def check_if_video_exists (store : List Recipe) (video_id : String) : Bool :=
  store.any (fun r => r.video_id == video_id)

/-- The structured outcome dict of `process_single_video`; fields absent
from a given branch's dict are `none`. -/
structure Outcome where
  status : String
  video_id : String
  title : Option String
  dish_name : Option Json
  sources : Option (List String)
  message : Option String

/-- `','.join(sources) if sources else "없음"` (app.py:419). -/
def sourcesStr (sources : List String) : String :=
  if sources.isEmpty then "없음" else String.intercalate "," sources

/-- `process_single_video` (app.py:370–444).  The idempotency gate is the
pre-check; metadata absence is the only modelled `error` exit (every other
external failure is absorbed before this level, exactly as in the source);
the success branch appends the seven-column row and reports the structured
outcome. -/
def process_single_video (env : Env) (st : ProcState)
    (video_id sessionId : String) (currentIndex totalVideos : Nat) :
    Outcome × ProcState :=
  if check_if_video_exists st.store video_id then
    ({ status := "skipped"
       video_id := video_id
       title := none
       dish_name := none
       sources := none
       message := none },
     { st with status := update_status st.status sessionId currentIndex
                 totalVideos "이미 처리된 영상" "" })
  else
    let st1 : ProcState :=
      { st with status := update_status st.status sessionId currentIndex
                  totalVideos "영상 정보 가져오는 중..." "" }
    match env.info video_id with
    | none =>
      ({ status := "error"
         video_id := video_id
         title := none
         dish_name := none
         sources := none
         message := none }, st1)
    | some info =>
      let title := info.title
      let description := info.description
      let video_url := info.url
      let st2 : ProcState :=
        { st1 with status := update_status st1.status sessionId currentIndex
                     totalVideos "자막 확인 중..." title }
      -- data_dict slots are filled only by truthy fetch results; the empty
      -- string is the absence marker (see `DataDict`).
      let transcript := (env.transcript video_id).getD ""
      let st3 : ProcState :=
        { st2 with status := update_status st2.status sessionId currentIndex
                     totalVideos "댓글 수집 중..." title }
      let comments := (env.comments video_id).getD ""
      let dd : DataDict :=
        { transcript := transcript
          description := description
          comments := comments }
      let st4 : ProcState :=
        { st3 with status := update_status st3.status sessionId currentIndex
                     totalVideos "AI 분석 중..." title }
      let res := analyze_with_gemini dd title (env.resp video_id)
      -- `if not ingredients: ingredients = ""` (app.py:415–417) is the
      -- identity on strings and is dropped.
      let row : Recipe :=
        { video_id := video_id
          title := title
          description := description
          ingredients := res.2.1
          dish_name := res.1
          url := video_url
          data_sources := some (sourcesStr res.2.2) }
      let st5 : ProcState :=
        { st4 with
            store := st4.store ++ [row]
            status := update_status st4.status sessionId currentIndex
              totalVideos "완료!" title }
      ({ status := "success"
         video_id := video_id
         title := some title
         dish_name := some res.1
         sources := some res.2.2
         message := none },
       st5)

/-- `FREE_TIER_LIMIT` (app.py:48). -/
def FREE_TIER_LIMIT : Nat := 10

/-- The sequential loop of `process_videos` (app.py:632–637):
`for idx, video_id in enumerate(video_ids, 1)`, one item at a time,
threading the shared state.  (`time.sleep(2)` affects no modelled state.) -/
def processSeq (env : Env) (sessionId : String) (totalVideos : Nat) :
    ProcState → Nat → List String → List Outcome × ProcState
  | st, _, [] => ([], st)
  | st, idx, v :: vs =>
    let r := process_single_video env st v sessionId idx totalVideos
    let rest := processSeq env sessionId totalVideos r.2 (idx + 1) vs
    (r.1 :: rest.1, rest.2)

/-- Finalization of the run record (app.py:639–643): mutate the existing
entry's `completed`, `success_count` and `total` fields. -/
def finalizeStatus (m : StatusMap) (sessionId : String)
    (successCount total : Nat) : StatusMap :=
  m.map (fun p =>
    if p.1 = sessionId then
      (p.1, { p.2 with
              completed := some true
              success_count := some successCount
              total := total })
    else p)

/-- `start_processing` (app.py:623–650): fetch the playlist, silently cap
it at `FREE_TIER_LIMIT`, write the initial status, run the sequential
worker, then finalize the status record. -/
def start_processing (env : Env) (playlistId sessionId : String)
    (st : ProcState) : List Outcome × ProcState :=
  let video_ids0 := env.playlist playlistId
  let video_ids :=
    if video_ids0.length > FREE_TIER_LIMIT then video_ids0.take FREE_TIER_LIMIT
    else video_ids0
  let st1 : ProcState :=
    { st with status := update_status st.status sessionId 0 video_ids.length
                "처리 준비 중..." "" }
  let r := processSeq env sessionId video_ids.length st1 1 video_ids
  let successCount := (r.1.filter (fun o => o.status = "success")).length
  (r.1, { r.2 with status := finalizeStatus r.2.status sessionId successCount
                     video_ids.length })

/-! ## Equation lemmas for the extractor -/

theorem analyzeRaises_of_none_available (dd : DataDict) (title : String)
    (resp : Option Json) (hA : availableData dd = []) :
    analyzeRaises dd title resp = Except.ok (Json.str title, "", []) := by
  unfold analyzeRaises
  rw [if_pos hA]

theorem analyzeRaises_none (dd : DataDict) (title : String)
    (hA : availableData dd ≠ []) :
    analyzeRaises dd title none = Except.error "JSONDecodeError" := by
  unfold analyzeRaises
  rw [if_neg hA]

theorem analyzeRaises_some (dd : DataDict) (title : String) (data : Json)
    (hA : availableData dd ≠ []) :
    analyzeRaises dd title (some data) = analyzeParsed dd title data := by
  unfold analyzeRaises
  rw [if_neg hA]

theorem analyzeParsed_of_emptyList {data : Json}
    (hR : recordOf data = RecordStep.emptyList) (dd : DataDict)
    (title : String) :
    analyzeParsed dd title data = Except.ok (Json.str title, "", []) := by
  unfold analyzeParsed
  rw [hR]

theorem analyzeParsed_of_bad {data : Json} {e : String}
    (hR : recordOf data = RecordStep.bad e) (dd : DataDict) (title : String) :
    analyzeParsed dd title data = Except.error e := by
  unfold analyzeParsed
  rw [hR]

theorem analyzeParsed_of_record {data : Json} {fs : List (String × Json)}
    (hR : recordOf data = RecordStep.record fs) (dd : DataDict)
    (title : String) :
    analyzeParsed dd title data =
      (match ingredientsToString ((objGet fs "ingredients").getD (Json.str "")) with
       | Except.error e => Except.error e
       | Except.ok raw =>
         Except.ok ((objGet fs "dish_name").getD (Json.str title),
           normalizeIngredients raw, presentSlots dd)) := by
  unfold analyzeParsed
  rw [hR]

theorem recordOf_eq_emptyList {data : Json}
    (h : recordOf data = RecordStep.emptyList) : data = Json.arr [] := by
  cases data with
  | null => simp [recordOf] at h
  | bool b => simp [recordOf] at h
  | num n => simp [recordOf] at h
  | str s => simp [recordOf] at h
  | obj fs => simp [recordOf] at h
  | arr es =>
    cases es with
    | nil => rfl
    | cons a t => cases a <;> simp [recordOf] at h

/-! ## Normalization lemmas -/

theorem mem_collapseCommasL : ∀ (l : List Char) (c : Char),
    c ∈ collapseCommasL l → c ∈ l
  | [], _, h => by simpa [collapseCommasL] using h
  | [a], c, h => by
    simp only [collapseCommasL] at h
    exact h
  | a :: d :: rest, c, h => by
    simp only [collapseCommasL] at h
    by_cases hc : a = ',' ∧ d = ','
    · rw [if_pos hc] at h
      exact List.mem_cons_of_mem a (mem_collapseCommasL (d :: rest) c h)
    · rw [if_neg hc] at h
      rcases List.mem_cons.mp h with rfl | h'
      · exact List.mem_cons_self c (d :: rest)
      · exact List.mem_cons_of_mem a (mem_collapseCommasL (d :: rest) c h')

theorem head?_collapseCommasL : ∀ l : List Char,
    (collapseCommasL l).head? = l.head?
  | [] => rfl
  | [_] => rfl
  | a :: d :: rest => by
    simp only [collapseCommasL]
    by_cases hc : a = ',' ∧ d = ','
    · rw [if_pos hc, head?_collapseCommasL (d :: rest)]
      rw [hc.1, hc.2]
      rfl
    · rw [if_neg hc]
      rfl

theorem chain_collapseCommasL : ∀ l : List Char,
    List.Chain' (fun a b => ¬(a = ',' ∧ b = ',')) (collapseCommasL l)
  | [] => List.chain'_nil
  | [a] => List.chain'_singleton a
  | a :: d :: rest => by
    simp only [collapseCommasL]
    by_cases hc : a = ',' ∧ d = ','
    · rw [if_pos hc]
      exact chain_collapseCommasL (d :: rest)
    · rw [if_neg hc]
      refine List.chain'_cons'.mpr ⟨?_, chain_collapseCommasL (d :: rest)⟩
      intro y hy
      rw [head?_collapseCommasL (d :: rest)] at hy
      have hyd : y = d := by simpa using hy.symm
      rw [hyd]
      exact hc

theorem mem_dropWhile (p : Char → Bool) : ∀ (l : List Char) (c : Char),
    c ∈ l.dropWhile p → c ∈ l
  | [], _, h => h
  | a :: t, c, h => by
    rw [List.dropWhile_cons] at h
    by_cases hp : p a = true
    · rw [if_pos hp] at h
      exact List.mem_cons_of_mem a (mem_dropWhile p t c h)
    · rwa [if_neg hp] at h

theorem chain_dropWhile {α : Type} {R : α → α → Prop} (p : α → Bool) :
    ∀ l : List α, List.Chain' R l → List.Chain' R (l.dropWhile p)
  | [], h => h
  | a :: t, h => by
    rw [List.dropWhile_cons]
    by_cases hp : p a = true
    · rw [if_pos hp]
      exact chain_dropWhile p t h.tail
    · rwa [if_neg hp]

theorem head?_dropWhile_ne (p : Char → Bool) : ∀ (l : List Char) (c : Char),
    (l.dropWhile p).head? = some c → p c = false
  | [], c, h => by cases h
  | a :: t, c, h => by
    rw [List.dropWhile_cons] at h
    by_cases hp : p a = true
    · rw [if_pos hp] at h
      exact head?_dropWhile_ne p t c h
    · rw [if_neg hp] at h
      have hac : a = c := by simpa using h
      rw [← hac]
      simpa using hp

theorem getLast?_dropWhile_of_ne_nil (p : Char → Bool) :
    ∀ l : List Char, l.dropWhile p ≠ [] →
      (l.dropWhile p).getLast? = l.getLast?
  | [], h => absurd rfl h
  | a :: t, h => by
    rw [List.dropWhile_cons] at h ⊢
    by_cases hp : p a = true
    · rw [if_pos hp] at h ⊢
      have ht : t ≠ [] := by
        intro h0
        rw [h0] at h
        exact h rfl
      obtain ⟨b, t', rfl⟩ := List.exists_cons_of_ne_nil ht
      rw [getLast?_dropWhile_of_ne_nil p (b :: t') h, List.getLast?_cons_cons]
    · rw [if_neg hp]

theorem chain_reverse_noCC {l : List Char}
    (h : List.Chain' (fun a b => ¬(a = ',' ∧ b = ',')) l) :
    List.Chain' (fun a b => ¬(a = ',' ∧ b = ',')) l.reverse := by
  rw [List.chain'_reverse]
  exact h.imp (fun a b hab hba => hab ⟨hba.2, hba.1⟩)

theorem mem_stripCommasL (l : List Char) (c : Char)
    (h : c ∈ stripCommasL l) : c ∈ l := by
  unfold stripCommasL at h
  rw [List.mem_reverse] at h
  have h2 := mem_dropWhile _ _ _ h
  rw [List.mem_reverse] at h2
  exact mem_dropWhile _ _ _ h2

theorem chain_stripCommasL {l : List Char}
    (h : List.Chain' (fun a b => ¬(a = ',' ∧ b = ',')) l) :
    List.Chain' (fun a b => ¬(a = ',' ∧ b = ',')) (stripCommasL l) := by
  unfold stripCommasL
  exact chain_reverse_noCC (chain_dropWhile _ _ (chain_reverse_noCC
    (chain_dropWhile _ _ h)))

theorem head?_stripCommasL_ne (l : List Char) :
    (stripCommasL l).head? ≠ some ',' := by
  intro h
  unfold stripCommasL at h
  rw [List.head?_reverse] at h
  by_cases hm : (l.dropWhile (fun c => c = ',')).reverse.dropWhile
      (fun c => c = ',') = []
  · rw [hm] at h
    cases h
  · rw [getLast?_dropWhile_of_ne_nil _ _ hm, List.getLast?_reverse] at h
    have := head?_dropWhile_ne _ _ _ h
    simp at this

theorem getLast?_stripCommasL_ne (l : List Char) :
    (stripCommasL l).getLast? ≠ some ',' := by
  intro h
  unfold stripCommasL at h
  rw [List.getLast?_reverse] at h
  have := head?_dropWhile_ne _ _ _ h
  simp at this

/-! ## Claim theorems -/

/-- C5: every string leaving the extractor's normalization pipeline
(whitespace removal, comma-run collapse, comma strip — app.py:334–336) has
no whitespace character, no two consecutive commas, and neither a leading
nor a trailing comma; and the spec's example `"a, b ,, a"` normalizes to
`"a,b,a"`. -/
theorem normalize_ingredients_clean :
    (∀ s : String,
      (∀ c ∈ (normalizeIngredients s).data, ¬ isPySpace c) ∧
      List.Chain' (fun a b => ¬(a = ',' ∧ b = ','))
        (normalizeIngredients s).data ∧
      (normalizeIngredients s).data.head? ≠ some ',' ∧
      (normalizeIngredients s).data.getLast? ≠ some ',') ∧
    normalizeIngredients "a, b ,, a" = "a,b,a" := by
  constructor
  · intro s
    have hdata : (normalizeIngredients s).data
        = stripCommasL (collapseCommasL (stripWsL s.data)) := rfl
    rw [hdata]
    refine ⟨?_, chain_stripCommasL (chain_collapseCommasL _),
      head?_stripCommasL_ne _, getLast?_stripCommasL_ne _⟩
    intro c hc
    intro hsp
    have h1 := mem_collapseCommasL _ _ (mem_stripCommasL _ _ hc)
    have h2 := (List.mem_filter.mp h1).2
    rw [hsp] at h2
    cases h2
  · rfl

/-- C2: the code returns the user-facing "please enter ingredients" outcome
for the empty raw input, but an input like `",, ,"` — non-empty raw text
whose parsed token set is empty — slips past the guard and drives
`cursor.execute` into the malformed query `SELECT * FROM recipes WHERE `
with zero conditions, which raises instead of returning the message.  This
theorem evaluates the embedding at both inputs, exhibiting the bug. -/
theorem recommend_empty_and_commas_input (store : List Recipe) :
    recommend_recipe "" store = RecResult.emptyInputMsg ∧
    recommend_recipe ",, ," store = RecResult.sqlError := by
  exact ⟨rfl, rfl⟩

/-- C6: an array-wrapped object response
`[{"dish_name":"X","ingredients":["a","b"]}]` yields dish name `"X"` and
ingredients `"a,b"`; the empty-list response `[]` yields
`(title, "", [])` without raising.  (`availableData dd ≠ []` states that
inference was reached at all — with no source data the model is never
called.) -/
theorem analyze_array_and_empty_list_response (title : String) (dd : DataDict)
    (h : availableData dd ≠ []) :
    analyze_with_gemini dd title
        (some (Json.arr [Json.obj
          [("dish_name", Json.str "X"),
           ("ingredients", Json.arr [Json.str "a", Json.str "b"])]]))
      = (Json.str "X", "a,b", presentSlots dd) ∧
    analyze_with_gemini dd title (some (Json.arr []))
      = (Json.str title, "", []) := by
  have h1 : analyzeRaises dd title
      (some (Json.arr [Json.obj
        [("dish_name", Json.str "X"),
         ("ingredients", Json.arr [Json.str "a", Json.str "b"])]]))
      = Except.ok (Json.str "X", "a,b", presentSlots dd) := by
    rw [analyzeRaises_some dd title _ h]
    rfl
  have h2 : analyzeRaises dd title (some (Json.arr []))
      = Except.ok (Json.str title, "", []) := by
    rw [analyzeRaises_some dd title _ h]
    rfl
  constructor
  · unfold analyze_with_gemini
    rw [h1]
  · unfold analyze_with_gemini
    rw [h2]

/-- Witness for C6 at a concrete input. -/
theorem analyze_array_and_empty_list_response_witness :
    analyze_with_gemini ⟨"cap", "", ""⟩ "T"
        (some (Json.arr [Json.obj
          [("dish_name", Json.str "X"),
           ("ingredients", Json.arr [Json.str "a", Json.str "b"])]]))
      = (Json.str "X", "a,b", presentSlots ⟨"cap", "", ""⟩) ∧
    analyze_with_gemini ⟨"cap", "", ""⟩ "T" (some (Json.arr []))
      = (Json.str "T", "", []) :=
  analyze_array_and_empty_list_response "T" ⟨"cap", "", ""⟩ (by
    intro h
    exact absurd (congrArg List.length h) (by simp [availableData]))

/-- C7: the extractor never raises past its boundary.  Whenever the `try`
body raises (`analyzeRaises` is an `.error` — this covers the JSON parse
failure and every other modelled exception), `analyze_with_gemini` returns
`(title, "", [])` with the title preserved as the fallback dish name; and a
parse failure (`resp = none`) always produces exactly that triple. -/
theorem analyze_exception_boundary :
    (∀ (dd : DataDict) (title : String) (resp : Option Json) (e : String),
      analyzeRaises dd title resp = Except.error e →
      analyze_with_gemini dd title resp = (Json.str title, "", [])) ∧
    (∀ (dd : DataDict) (title : String),
      analyze_with_gemini dd title none = (Json.str title, "", [])) := by
  constructor
  · intro dd title resp e h
    unfold analyze_with_gemini
    rw [h]
  · intro dd title
    unfold analyze_with_gemini
    by_cases hA : availableData dd = []
    · rw [analyzeRaises_of_none_available dd title none hA]
    · rw [analyzeRaises_none dd title hA]

/-- Witness for C7 at a concrete input: a transcript is present, the model
response fails to parse, and the boundary degrades to `(title, "", [])`. -/
theorem analyze_exception_boundary_witness :
    analyze_with_gemini ⟨"cap", "", ""⟩ "T" none = (Json.str "T", "", []) :=
  analyze_exception_boundary.1 ⟨"cap", "", ""⟩ "T" none "JSONDecodeError" rfl

/-- C8 counterexample: with the captions slot non-empty and an unparsable
model response, the extractor's returned source list is `[]`, not the
non-empty available subset `["자막"]` the claim requires (the persisted
value would then be the sentinel `"없음"`). -/
theorem sources_empty_on_parse_failure :
    (analyze_with_gemini ⟨"cap", "", ""⟩ "T" none).2.2 = [] ∧
    presentSlots ⟨"cap", "", ""⟩ = ["자막"] ∧
    sourcesStr (analyze_with_gemini ⟨"cap", "", ""⟩ "T" none).2.2 = "없음" := by
  exact ⟨rfl, rfl, rfl⟩

/-- C8 (amended): whenever the `try` body completes normally, the returned
source list is exactly the list of non-empty input slots in the fixed order
captions, description, comments — computed from the builder input, never
from the model's response — except on the two early returns (no input slot
at all, or the empty-list response), where the whole result degrades to
`(title, "", [])`; joining for persistence yields the comma-joined subset,
or the sentinel `"없음"` for the empty list. -/
theorem sources_from_input_slots (dd : DataDict) (title : String)
    (resp : Option Json) (d : Json) (i : String) (s : List String)
    (h : analyzeRaises dd title resp = Except.ok (d, i, s)) :
    (resp ≠ some (Json.arr []) → availableData dd ≠ [] → s = presentSlots dd) ∧
    ((resp = some (Json.arr []) ∨ availableData dd = []) →
      (d, i, s) = (Json.str title, "", [])) ∧
    sourcesStr s = (if s = [] then "없음" else String.intercalate "," s) := by
  have hstr : ∀ t : List String,
      sourcesStr t = (if t = [] then "없음" else String.intercalate "," t) := by
    intro t
    cases t <;> rfl
  by_cases hA : availableData dd = []
  · rw [analyzeRaises_of_none_available dd title resp hA] at h
    simp only [Except.ok.injEq, Prod.mk.injEq] at h
    obtain ⟨rfl, rfl, rfl⟩ := h
    exact ⟨fun _ hA' => absurd hA hA', fun _ => rfl, hstr []⟩
  · rcases resp with _ | data
    · rw [analyzeRaises_none dd title hA] at h
      cases h
    · rw [analyzeRaises_some dd title data hA] at h
      rcases hR : recordOf data with _ | e | fs
      · rw [analyzeParsed_of_emptyList hR dd title] at h
        simp only [Except.ok.injEq, Prod.mk.injEq] at h
        obtain ⟨rfl, rfl, rfl⟩ := h
        have hdata := recordOf_eq_emptyList hR
        subst hdata
        exact ⟨fun hne _ => absurd rfl hne, fun _ => rfl, hstr []⟩
      · rw [analyzeParsed_of_bad hR dd title] at h
        cases h
      · rw [analyzeParsed_of_record hR dd title] at h
        rcases hI : ingredientsToString ((objGet fs "ingredients").getD (Json.str "")) with e | raw
        · rw [hI] at h
          cases h
        · rw [hI] at h
          simp only [Except.ok.injEq, Prod.mk.injEq] at h
          obtain ⟨rfl, rfl, rfl⟩ := h
          refine ⟨fun _ _ => rfl, ?_, hstr _⟩
          rintro (hresp | hA')
          · obtain rfl : data = Json.arr [] := by
              injection hresp
            cases hR
          · exact absurd hA' hA

/-- Witness for C8 at a concrete input: captions present, a plain object
response, sources `["자막"]`. -/
theorem sources_from_input_slots_witness :
    ((some (Json.obj [("dish_name", Json.str "X"),
        ("ingredients", Json.str "a,b")]) : Option Json)
      ≠ some (Json.arr []) →
      availableData ⟨"cap", "", ""⟩ ≠ [] →
      ["자막"] = presentSlots ⟨"cap", "", ""⟩) ∧
    (((some (Json.obj [("dish_name", Json.str "X"),
        ("ingredients", Json.str "a,b")]) : Option Json)
        = some (Json.arr []) ∨ availableData ⟨"cap", "", ""⟩ = []) →
      ((Json.str "X" : Json), ("a,b" : String), (["자막"] : List String))
        = (Json.str "T", "", [])) ∧
    sourcesStr ["자막"]
      = (if (["자막"] : List String) = [] then "없음"
         else String.intercalate "," ["자막"]) :=
  sources_from_input_slots ⟨"cap", "", ""⟩ "T"
    (some (Json.obj [("dish_name", Json.str "X"),
      ("ingredients", Json.str "a,b")]))
    (Json.str "X") "a,b" ["자막"] rfl

/-- C10: reading the status of a run identifier that is not in the status
map yields the well-formed default record — current 0, total 0, percentage
0, the "preparing" status text, empty video title, completed `false` —
rather than failing. -/
theorem get_status_unknown_default (m : StatusMap) (sessionId : String)
    (h : ∀ p ∈ m, p.1 ≠ sessionId) :
    get_status m sessionId =
      { current := 0
        total := 0
        percentage := 0
        status := "준비 중..."
        video_title := ""
        completed := some false
        success_count := none
        timestamp := none } := by
  unfold get_status mapGet?
  have hf : m.find? (fun p => p.1 = sessionId) = none := by
    rw [List.find?_eq_none]
    intro p hp
    simp [h p hp]
  rw [hf]
  rfl

/-- Witness for C10: the empty status map at a concrete run id. -/
theorem get_status_unknown_default_witness :
    get_status [] "run1" =
      { current := 0
        total := 0
        percentage := 0
        status := "준비 중..."
        video_title := ""
        completed := some false
        success_count := none
        timestamp := none } :=
  get_status_unknown_default [] "run1" (by intro p hp; cases hp)

/-! ## Sorting lemmas for the recommendation matcher -/

theorem mem_insertDesc (x : RecipeCard) : ∀ (l : List RecipeCard)
    (y : RecipeCard), y ∈ insertDesc x l ↔ y = x ∨ y ∈ l
  | [], y => by simp [insertDesc]
  | z :: zs, y => by
    simp only [insertDesc]
    by_cases hc : x.rate10 < z.rate10
    · rw [if_pos hc, List.mem_cons, mem_insertDesc x zs y, List.mem_cons]
      tauto
    · rw [if_neg hc, List.mem_cons, List.mem_cons]

theorem pairwise_insertDesc (x : RecipeCard) : ∀ l : List RecipeCard,
    List.Pairwise (fun a b => b.rate10 ≤ a.rate10) l →
    List.Pairwise (fun a b => b.rate10 ≤ a.rate10) (insertDesc x l)
  | [], _ => List.pairwise_singleton _ x
  | z :: zs, h => by
    simp only [insertDesc]
    rw [List.pairwise_cons] at h
    by_cases hc : x.rate10 < z.rate10
    · rw [if_pos hc, List.pairwise_cons]
      refine ⟨?_, pairwise_insertDesc x zs h.2⟩
      intro y hy
      rcases (mem_insertDesc x zs y).mp hy with rfl | hy'
      · exact Nat.le_of_lt hc
      · exact h.1 y hy'
    · rw [if_neg hc, List.pairwise_cons]
      refine ⟨?_, List.pairwise_cons.mpr h⟩
      intro y hy
      rcases List.mem_cons.mp hy with rfl | hy'
      · exact Nat.le_of_not_lt hc
      · exact le_trans (h.1 y hy') (Nat.le_of_not_lt hc)

theorem pairwise_sortDesc : ∀ l : List RecipeCard,
    List.Pairwise (fun a b => b.rate10 ≤ a.rate10) (sortDesc l)
  | [] => List.Pairwise.nil
  | x :: xs => pairwise_insertDesc x (sortDesc xs) (pairwise_sortDesc xs)

theorem filter_insertDesc_eq (k : Nat) (x : RecipeCard)
    (hx : x.rate10 = k) : ∀ l : List RecipeCard,
    (insertDesc x l).filter (fun c => c.rate10 == k) =
      x :: l.filter (fun c => c.rate10 == k)
  | [] => by simp [insertDesc, hx]
  | z :: zs => by
    simp only [insertDesc]
    by_cases hc : x.rate10 < z.rate10
    · have hz : (z.rate10 == k) = false := by
        rw [hx] at hc
        simp [Nat.ne_of_gt hc]
      rw [if_pos hc, List.filter_cons, hz]
      simp only [Bool.false_eq_true, if_false]
      rw [filter_insertDesc_eq k x hx zs, List.filter_cons, hz]
      simp only [Bool.false_eq_true, if_false]
    · rw [if_neg hc, List.filter_cons]
      have hxk : (x.rate10 == k) = true := by simp [hx]
      rw [hxk]
      simp only [if_true]

theorem filter_insertDesc_ne (k : Nat) (x : RecipeCard)
    (hx : x.rate10 ≠ k) : ∀ l : List RecipeCard,
    (insertDesc x l).filter (fun c => c.rate10 == k) =
      l.filter (fun c => c.rate10 == k)
  | [] => by simp [insertDesc, hx]
  | z :: zs => by
    simp only [insertDesc]
    by_cases hc : x.rate10 < z.rate10
    · rw [if_pos hc, List.filter_cons, List.filter_cons,
        filter_insertDesc_ne k x hx zs]
    · have hxk : (x.rate10 == k) = false := by simp [hx]
      rw [if_neg hc, List.filter_cons, hxk]
      simp only [Bool.false_eq_true, if_false]

theorem filter_sortDesc (k : Nat) : ∀ l : List RecipeCard,
    (sortDesc l).filter (fun c => c.rate10 == k) =
      l.filter (fun c => c.rate10 == k)
  | [] => rfl
  | x :: xs => by
    have hs : sortDesc (x :: xs) = insertDesc x (sortDesc xs) := rfl
    rw [hs]
    by_cases hx : x.rate10 = k
    · rw [filter_insertDesc_eq k x hx (sortDesc xs), filter_sortDesc k xs,
        List.filter_cons]
      have hxk : (x.rate10 == k) = true := by simp [hx]
      rw [hxk]
      simp only [if_true]
    · rw [filter_insertDesc_ne k x hx (sortDesc xs), filter_sortDesc k xs,
        List.filter_cons]
      have hxk : (x.rate10 == k) = false := by simp [hx]
      rw [hxk]
      simp only [Bool.false_eq_true, if_false]

/-! ## Example and counterexample data for the matcher claims -/

/-- Spec example R1 with ingredient set `{a,b,c}`. -/
def exR1 : Recipe :=
  { video_id := "v1"
    title := "R1"
    description := ""
    ingredients := "a,b,c"
    dish_name := Json.str "R1"
    url := "u1"
    data_sources := some "없음" }

/-- Spec example R2 with ingredient set `{a,b}`. -/
def exR2 : Recipe :=
  { video_id := "v2"
    title := "R2"
    description := ""
    ingredients := "a,b"
    dish_name := Json.str "R2"
    url := "u2"
    data_sources := some "없음" }

/-- 41 distinct ingredients, 5 of them among the user's 6 tokens:
exact rate 5/41·100 ≈ 12.195 %, displayed as 12.2. -/
def cxRecipeA : Recipe :=
  { video_id := "cxa"
    title := "Recipe A"
    description := ""
    ingredients := "t01,t02,t03,t04,t05,a01,a02,a03,a04,a05,a06,a07,a08,a09,a10,a11,a12,a13,a14,a15,a16,a17,a18,a19,a20,a21,a22,a23,a24,a25,a26,a27,a28,a29,a30,a31,a32,a33,a34,a35,a36"
    dish_name := Json.str "A"
    url := "ua"
    data_sources := some "없음" }

/-- 49 distinct ingredients, 6 of them among the user's 6 tokens:
exact rate 6/49·100 ≈ 12.245 %, displayed as 12.2 as well. -/
def cxRecipeB : Recipe :=
  { video_id := "cxb"
    title := "Recipe B"
    description := ""
    ingredients := "t01,t02,t03,t04,t05,t06,b01,b02,b03,b04,b05,b06,b07,b08,b09,b10,b11,b12,b13,b14,b15,b16,b17,b18,b19,b20,b21,b22,b23,b24,b25,b26,b27,b28,b29,b30,b31,b32,b33,b34,b35,b36,b37,b38,b39,b40,b41,b42,b43"
    dish_name := Json.str "B"
    url := "ub"
    data_sources := some "없음" }

/-- The user query for the sorting counterexample. -/
def cxInput : String := "t01,t02,t03,t04,t05,t06"

/-- A store row whose ingredient string is the single lowercase letter
`a`, for the `LIKE`-case-insensitivity counterexample. -/
def lowercaseRecipe : Recipe :=
  { video_id := "lv"
    title := "Lower"
    description := ""
    ingredients := "a"
    dish_name := Json.str "Lower"
    url := "ul"
    data_sources := some "없음" }

set_option maxRecDepth 100000 in
/-- C3 counterexample: the code sorts by the one-decimal formatted rate,
not the exact rate.  With the user set `{t01..t06}`, Recipe A (41
ingredients, 5 matched, exactly 12.195 %) and Recipe B (49 ingredients, 6
matched, exactly 12.245 %) both display as 12.2, so the stable sort keeps
scan order `[A, B]` — even though B's exact `match_rate` is strictly
greater, refuting "sorted in descending order of match_rate". -/
theorem recommend_not_sorted_by_exact_rate :
    (recommend_recipe cxInput [cxRecipeA, cxRecipeB]).cards.map
      (fun c => c.title) = ["Recipe A", "Recipe B"] ∧
    exactRatePct (parseTokens cxInput) cxRecipeA
      < exactRatePct (parseTokens cxInput) cxRecipeB := by
  constructor
  · rfl
  · have hmA : matchedCount (parseTokens cxInput) cxRecipeA = 5 := by rfl
    have hnA : ingCount cxRecipeA = 41 := by rfl
    have hmB : matchedCount (parseTokens cxInput) cxRecipeB = 6 := by rfl
    have hnB : ingCount cxRecipeB = 49 := by rfl
    unfold exactRatePct
    rw [hmA, hnA, hmB, hnB]
    norm_num

/-- C3 (amended): the matcher computes each candidate's match rate by the
claimed formula, rounds it to one decimal place (the formatted value the
code sorts by), and returns the candidates in descending order of that
rounded rate, candidates with equal rounded rate staying in the store's
scan order (stated as: for every rounded value `k`, the sub-list of cards
at `k` equals the corresponding sub-list of the unsorted candidates); for
the spec example, R1 `{a,b,c}`, R2 `{a,b}`, user `{a,b}`, both recipes are
returned with R2 (100.0) ranked above R1 (66.7). -/
theorem recommend_sorted_by_rounded_rate :
    (∀ (input : String) (store : List Recipe) (l : List RecipeCard),
      recommend_recipe input store = RecResult.ranked l →
      List.Pairwise (fun a b => b.rate10 ≤ a.rate10) l ∧
      ∀ k : Nat, l.filter (fun c => c.rate10 == k) =
        ((store.filter (isCandidate (parseTokens input))).map
          (mkCard (parseTokens input))).filter (fun c => c.rate10 == k)) ∧
    (recommend_recipe "a,b" [exR1, exR2]).cards.map (fun c => c.title)
      = ["R2", "R1"] ∧
    (recommend_recipe "a,b" [exR1, exR2]).cards.map (fun c => c.rate10)
      = [1000, 667] := by
  refine ⟨?_, rfl, rfl⟩
  intro input store l h
  unfold recommend_recipe at h
  by_cases h0 : input = ""
  · rw [if_pos h0] at h
    cases h
  · rw [if_neg h0] at h
    by_cases h1 : (parseTokens input).isEmpty = true
    · rw [if_pos h1] at h
      cases h
    · rw [if_neg h1] at h
      by_cases h2 :
          (store.filter (isCandidate (parseTokens input))).isEmpty = true
      · rw [if_pos h2] at h
        cases h
      · rw [if_neg h2] at h
        injection h with h'
        subst h'
        exact ⟨pairwise_sortDesc _, fun k => filter_sortDesc k _⟩

/-- Witness for C3 at the spec's own example input. -/
theorem recommend_sorted_by_rounded_rate_witness :
    List.Pairwise (fun a b => b.rate10 ≤ a.rate10)
      ((recommend_recipe "a,b" [exR1, exR2]).cards) ∧
    ∀ k : Nat, ((recommend_recipe "a,b" [exR1, exR2]).cards).filter
        (fun c => c.rate10 == k) =
      (([exR1, exR2].filter (isCandidate (parseTokens "a,b"))).map
        (mkCard (parseTokens "a,b"))).filter (fun c => c.rate10 == k) :=
  recommend_sorted_by_rounded_rate.1 "a,b" [exR1, exR2]
    ((recommend_recipe "a,b" [exR1, exR2]).cards) rfl

/-- C4 counterexample: SQLite's `LIKE` is ASCII-case-insensitive, so the
user token `"A"` selects the stored row whose ingredient string is `"a"` —
yet `"A"` is not a literal substring of `"a"`, refuting the
"candidate iff some token is a literal substring" reading. -/
theorem candidate_without_literal_substring :
    (recommend_recipe "A" [lowercaseRecipe]).cards.map (fun c => c.title)
      = ["Lower"] ∧
    parseTokens "A" = ["A"] ∧
    ¬ List.IsInfix "A".data "a".data := by
  refine ⟨rfl, rfl, ?_⟩
  decide

/-- C4 (amended): for a non-empty parsed token set, a stored recipe is a
candidate if and only if at least one user token matches somewhere inside
the stored `ingredients` string under SQLite `LIKE` semantics
(ASCII-case-insensitive, `%` matching any sequence and `_` any single
character inside a token); and the matcher reports "no matches" exactly
when no stored recipe passes that filter. -/
theorem candidate_iff_like_match :
    (∀ (tokens : List String) (store : List Recipe) (r : Recipe),
      r ∈ store.filter (isCandidate tokens) ↔
        r ∈ store ∧ ∃ t ∈ tokens, sqlLikeContains t r.ingredients = true) ∧
    (∀ (input : String) (store : List Recipe),
      parseTokens input ≠ [] →
      (recommend_recipe input store = RecResult.noMatches ↔
        store.filter (isCandidate (parseTokens input)) = [])) := by
  constructor
  · intro tokens store r
    rw [List.mem_filter]
    constructor
    · rintro ⟨hr, hc⟩
      rw [isCandidate, List.any_eq_true] at hc
      obtain ⟨t, ht, hmatch⟩ := hc
      exact ⟨hr, t, ht, hmatch⟩
    · rintro ⟨hr, t, ht, hmatch⟩
      refine ⟨hr, ?_⟩
      rw [isCandidate, List.any_eq_true]
      exact ⟨t, ht, hmatch⟩
  · intro input store hne
    have h0 : input ≠ "" := by
      intro h
      apply hne
      rw [h]
      rfl
    have h1 : (parseTokens input).isEmpty = false := by
      cases hp : parseTokens input with
      | nil => exact absurd hp hne
      | cons a t => rfl
    unfold recommend_recipe
    rw [if_neg h0, if_neg (by simp [h1])]
    by_cases h2 :
        (store.filter (isCandidate (parseTokens input))).isEmpty = true
    · rw [if_pos h2]
      exact ⟨fun _ => List.isEmpty_iff.mp h2, fun _ => rfl⟩
    · rw [if_neg h2]
      constructor
      · intro hcon
        cases hcon
      · intro hfil
        exact absurd (by rw [hfil]; rfl) h2

/-- Witness for C4 at a concrete input: token `"A"` against the lowercase
store — the filter is non-empty, so the outcome is not "no matches". -/
theorem candidate_iff_like_match_witness :
    recommend_recipe "A" [lowercaseRecipe] = RecResult.noMatches ↔
      [lowercaseRecipe].filter (isCandidate (parseTokens "A")) = [] :=
  candidate_iff_like_match.2 "A" [lowercaseRecipe] (by decide)

/-! ## Item-processor lemmas -/

/-- Every branch of `process_single_video` reports the processed item's id
in its outcome dict. -/
theorem outcome_video_id (env : Env) (st : ProcState) (v sid : String)
    (i n : Nat) : (process_single_video env st v sid i n).1.video_id = v := by
  unfold process_single_video
  by_cases hg : check_if_video_exists st.store v = true
  · rw [if_pos hg]
  · rw [if_neg hg]
    rcases henv : env.info v with _ | info
    · rfl
    · rfl

/-- The idempotency gate taken: an already-stored id yields the `skipped`
outcome and leaves the store untouched. -/
theorem process_exists_skipped (env : Env) (st : ProcState) (vid sid : String)
    (i n : Nat) (hgate : check_if_video_exists st.store vid = true) :
    process_single_video env st vid sid i n =
      ({ status := "skipped"
         video_id := vid
         title := none
         dish_name := none
         sources := none
         message := none },
       { st with status := update_status st.status sid i n "이미 처리된 영상" "" }) := by
  unfold process_single_video
  rw [if_pos hgate]

/-- The success path: an absent id with available metadata appends exactly
one row, carrying that id, to the store. -/
theorem process_not_exists (env : Env) (st : ProcState) (vid sid : String)
    (i n : Nat) (info : VideoInfo)
    (hgate : check_if_video_exists st.store vid = false)
    (hinfo : env.info vid = some info) :
    (process_single_video env st vid sid i n).1.status = "success" ∧
    ∃ row : Recipe, row.video_id = vid ∧
      (process_single_video env st vid sid i n).2.store = st.store ++ [row] := by
  unfold process_single_video
  rw [if_neg (by rw [hgate]; exact Bool.false_ne_true), hinfo]
  refine ⟨rfl, ?_⟩
  refine ⟨{ video_id := vid
            title := info.title
            description := info.description
            ingredients := (analyze_with_gemini
              { transcript := (env.transcript vid).getD ""
                description := info.description
                comments := (env.comments vid).getD "" }
              info.title (env.resp vid)).2.1
            dish_name := (analyze_with_gemini
              { transcript := (env.transcript vid).getD ""
                description := info.description
                comments := (env.comments vid).getD "" }
              info.title (env.resp vid)).1
            url := info.url
            data_sources := some (sourcesStr ((analyze_with_gemini
              { transcript := (env.transcript vid).getD ""
                description := info.description
                comments := (env.comments vid).getD "" }
              info.title (env.resp vid)).2.2)) }, rfl, rfl⟩

/-! ## Claim theorems: idempotency and the batch driver -/

/-- C1: processing the same item id twice yields exactly one stored row —
the first call on an id absent from the store (with metadata available, so
that the insert stage is reached) appends exactly one `Recipe` row bearing
that id, and the second call takes the idempotency gate: it reports
`skipped` and performs no insert. -/
theorem process_twice_idempotent (env : Env) (st : ProcState)
    (vid sid : String) (i n : Nat) (info : VideoInfo)
    (habs : ∀ r ∈ st.store, r.video_id ≠ vid)
    (hinfo : env.info vid = some info) :
    (process_single_video env st vid sid i n).1.status = "success" ∧
    ((process_single_video env st vid sid i n).2.store.filter
      (fun r => r.video_id == vid)).length = 1 ∧
    (process_single_video env
      (process_single_video env st vid sid i n).2 vid sid i n).1.status
      = "skipped" ∧
    (process_single_video env
      (process_single_video env st vid sid i n).2 vid sid i n).2.store =
      (process_single_video env st vid sid i n).2.store := by
  have hgate1 : check_if_video_exists st.store vid = false := by
    unfold check_if_video_exists
    rw [List.any_eq_false]
    intro r hr
    simp [habs r hr]
  obtain ⟨hsucc, row, hrowid, hstore⟩ :=
    process_not_exists env st vid sid i n info hgate1 hinfo
  have hfilter : ((process_single_video env st vid sid i n).2.store.filter
      (fun r => r.video_id == vid)).length = 1 := by
    rw [hstore, List.filter_append]
    have h1 : st.store.filter (fun r => r.video_id == vid) = [] := by
      rw [List.filter_eq_nil_iff]
      intro r hr
      simp [habs r hr]
    have h2 : [row].filter (fun r => r.video_id == vid) = [row] := by
      simp [List.filter_cons, hrowid]
    rw [h1, h2]
    rfl
  have hgate2 : check_if_video_exists
      (process_single_video env st vid sid i n).2.store vid = true := by
    unfold check_if_video_exists
    rw [hstore, List.any_eq_true]
    exact ⟨row, by simp, by simp [hrowid]⟩
  rw [process_exists_skipped env _ vid sid i n hgate2]
  exact ⟨hsucc, hfilter, rfl, rfl⟩

/-- A concrete environment for the C1 witness: metadata exists, no
captions, no comments, and an unparsable model response. -/
def envW : Env :=
  { playlist := fun _ => []
    info := fun _ => some { title := "T", description := "", url := "u" }
    transcript := fun _ => none
    comments := fun _ => none
    resp := fun _ => none }

/-- Witness for C1 on the empty store at a concrete item id. -/
theorem process_twice_idempotent_witness :
    (process_single_video envW ⟨[], []⟩ "v" "s" 1 1).1.status = "success" ∧
    ((process_single_video envW ⟨[], []⟩ "v" "s" 1 1).2.store.filter
      (fun r => r.video_id == "v")).length = 1 ∧
    (process_single_video envW
      (process_single_video envW ⟨[], []⟩ "v" "s" 1 1).2 "v" "s" 1 1).1.status
      = "skipped" ∧
    (process_single_video envW
      (process_single_video envW ⟨[], []⟩ "v" "s" 1 1).2 "v" "s" 1 1).2.store =
      (process_single_video envW ⟨[], []⟩ "v" "s" 1 1).2.store :=
  process_twice_idempotent envW ⟨[], []⟩ "v" "s" 1 1
    { title := "T", description := "", url := "u" }
    (by intro r hr; cases hr) rfl

/-- The sequential worker visits exactly the ids it is given, in order:
its outcome list maps back to the input id list. -/
theorem processSeq_video_ids (env : Env) (sid : String) (tot : Nat) :
    ∀ (vs : List String) (st : ProcState) (idx : Nat),
      (processSeq env sid tot st idx vs).1.map (fun o => o.video_id) = vs
  | [], _, _ => rfl
  | v :: vs, st, idx => by
    simp only [processSeq, List.map_cons]
    rw [outcome_video_id env st v sid idx tot,
      processSeq_video_ids env sid tot vs
        (process_single_video env st v sid idx tot).2 (idx + 1)]

/-- C9: the batch driver truncates the playlist to `FREE_TIER_LIMIT = 10`
items before processing and then works strictly sequentially: the outcome
list corresponds one-to-one, in order, to the first ten playlist items
(the whole playlist when it is shorter), so a 37-item playlist processes
exactly its first 10 items in order, and no run processes more than 10. -/
theorem batch_cap_first_ten_in_order (env : Env)
    (playlistId sessionId : String) (st : ProcState) :
    (start_processing env playlistId sessionId st).1.map (fun o => o.video_id)
      = (env.playlist playlistId).take FREE_TIER_LIMIT ∧
    (start_processing env playlistId sessionId st).1.length
      ≤ FREE_TIER_LIMIT := by
  have hcap : (if (env.playlist playlistId).length > FREE_TIER_LIMIT then
      (env.playlist playlistId).take FREE_TIER_LIMIT
      else env.playlist playlistId)
      = (env.playlist playlistId).take FREE_TIER_LIMIT := by
    by_cases h : (env.playlist playlistId).length > FREE_TIER_LIMIT
    · rw [if_pos h]
    · rw [if_neg h]
      exact (List.take_of_length_le (Nat.le_of_not_lt h)).symm
  have hmap : (start_processing env playlistId sessionId st).1.map
      (fun o => o.video_id)
      = (env.playlist playlistId).take FREE_TIER_LIMIT := by
    simp only [start_processing, hcap]
    rw [processSeq_video_ids]
  refine ⟨hmap, ?_⟩
  have hlen := congrArg List.length hmap
  rw [List.length_map] at hlen
  rw [hlen]
  exact List.length_take_le FREE_TIER_LIMIT (env.playlist playlistId)

end RecipeApp
